import Mathlib

/-!
# VibeDashboard — data aggregation and period-filtering pipeline

Shallow embedding of the core of the VibeDashboard repository
(`src/parser.js` together with the helpers it imports from `src/utils.js`):
merging raw usage records, filtering them to a time window, and deriving
summary and breakdown statistics, plus the structural validator.

Modelling conventions:
* JavaScript numbers are modelled as rationals (`ℚ`); every arithmetic
  operation used by the core (`+`, `*`, `/`, `Math.round`, `toFixed`) is
  exact on the values that occur, so `ℚ` is a faithful carrier.
* A possibly-absent field (`undefined` in JS, read through `x || 0`) is an
  `Option`; `orZero` is the `|| 0` read.
* JS objects used as maps (`byModel`, `byDay`) are association lists in
  insertion order, mirroring JS string-keyed iteration order.
* `byDay` keys are ISO `"YYYY-MM-DD"` strings in the source; since
  `new Date("YYYY-MM-DD")` is exactly UTC midnight of that calendar day,
  a key is modelled as its UTC day index (days since epoch), and
  `new Date(key).getTime()` is `dayIndex * msPerDay`.
* `filterByPeriod` calls `getPeriodRange(period)` with the implicit
  reference date `new Date()` (now); `setUTCHours` erases the time of day,
  so the behaviour depends only on the UTC day of "now", which is passed
  explicitly as `todayIdx`.
-/

namespace VibeDashboard

/-- `Math.round` (and `toFixed(0)` re-read with `Number`): round to the
nearest integer, ties toward `+∞`, i.e. `⌊q + 1/2⌋`. -/
def jsRound (q : ℚ) : ℤ := ⌊q + 1 / 2⌋

/-- The JS read `x || 0`: an absent numeric field counts as `0`. -/
def orZero (o : Option ℚ) : ℚ := o.getD 0

/-- A `byModel` entry value: `{cost, inputTokens, outputTokens}`. -/
structure ModelStat where
  cost : Option ℚ
  inputTokens : Option ℚ
  outputTokens : Option ℚ
  deriving DecidableEq, Repr

/-- A `byDay` entry value: `{cost, tokens}`. -/
structure DayStat where
  cost : Option ℚ
  tokens : Option ℚ
  deriving DecidableEq, Repr

/-- The canonical internal shape (`RawUsageRecord`). All fields may be
absent in an arbitrary input object (e.g. the empty record `{}`). -/
structure RawUsageRecord where
  totalCost : Option ℚ
  totalInputTokens : Option ℚ
  totalOutputTokens : Option ℚ
  totalCacheCreationInputTokens : Option ℚ
  totalCacheReadInputTokens : Option ℚ
  byModel : Option (List (String × ModelStat))
  byDay : Option (List (Int × DayStat))
  deriving DecidableEq, Repr

/-- Milliseconds per UTC day (`new Date` arithmetic is in ms). -/
def msPerDay : ℤ := 86400000

/-- Result of `getPeriodRange` (`src/utils.js`): `{startDate, endDate, days}`,
dates as ms since epoch, `startDate = null` meaning no start limit. -/
structure PeriodRange where
  startDate : Option ℤ
  endDate : ℤ
  days : Option ℤ
  deriving DecidableEq, Repr

/-- `getPeriodRange(period, referenceDate)` from `src/utils.js`, with the
reference date given by its UTC day index `todayIdx` (the source sets the
end to 23:59:59.999 of that day and the start to 00:00:00.000 of the day
`k` days earlier, `k = 0 / 6 / 29`; `'all'` and any unrecognized tag fall
through to `startDate = null`). -/
def getPeriodRange (period : String) (todayIdx : ℤ) : PeriodRange :=
  let endDate := todayIdx * msPerDay + 86399999
  if period = "day" then
    ⟨some (todayIdx * msPerDay), endDate, some 1⟩
  else if period = "week" then
    ⟨some ((todayIdx - 6) * msPerDay), endDate, some 7⟩
  else if period = "month" then
    ⟨some ((todayIdx - 29) * msPerDay), endDate, some 30⟩
  else
    ⟨none, endDate, none⟩

/-- `isDateInRange(date, range)` from `src/utils.js`: `true` when there is
no start limit, else `startDate ≤ date ≤ endDate` on parsed ms values. -/
def isDateInRange (dateIdx : ℤ) (range : PeriodRange) : Bool :=
  match range.startDate with
  | none => true
  | some s => decide (s ≤ dateIdx * msPerDay ∧ dateIdx * msPerDay ≤ range.endDate)

/-- `calculatePercentage(value, total, decimals)` from `src/utils.js`:
`0` when `total === 0`, otherwise `Number(((value/total)*100).toFixed(decimals))`,
i.e. `value/total*100` rounded to `decimals` places (ties toward `+∞`). -/
def calculatePercentage (value total : ℚ) (decimals : ℕ) : ℚ :=
  if total = 0 then 0
  else (jsRound (value / total * 100 * 10 ^ decimals) : ℚ) / 10 ^ decimals

/-- The all-zero record produced by `mergeUsageData` for an empty input
(and used as the accumulator for the N ≥ 2 merge). -/
def zeroRecord : RawUsageRecord :=
  ⟨some 0, some 0, some 0, some 0, some 0, some [], some []⟩

/-- One step of the `byModel` merge loop: create the key with a zero entry
when absent, then add `stats.cost || 0` etc. onto it. -/
def bumpModel (l : List (String × ModelStat)) (k : String) (s : ModelStat) :
    List (String × ModelStat) :=
  match l with
  | [] => [(k, ⟨some (orZero s.cost), some (orZero s.inputTokens),
               some (orZero s.outputTokens)⟩)]
  | (k', t) :: rest =>
    if k' = k then
      (k', ⟨some (orZero t.cost + orZero s.cost),
            some (orZero t.inputTokens + orZero s.inputTokens),
            some (orZero t.outputTokens + orZero s.outputTokens)⟩) :: rest
    else (k', t) :: bumpModel rest k s

/-- One step of the `byDay` merge loop: create the key with a zero entry
when absent, then add `stats.cost || 0` and `stats.tokens || 0` onto it. -/
def bumpDay (l : List (Int × DayStat)) (k : Int) (s : DayStat) :
    List (Int × DayStat) :=
  match l with
  | [] => [(k, ⟨some (orZero s.cost), some (orZero s.tokens)⟩)]
  | (k', t) :: rest =>
    if k' = k then
      (k', ⟨some (orZero t.cost + orZero s.cost),
            some (orZero t.tokens + orZero s.tokens)⟩) :: rest
    else (k', t) :: bumpDay rest k s

/-- The body of the `for (const data of dataArray)` loop of
`mergeUsageData`: sum the five scalar totals and fold each of `data`'s
`byModel` / `byDay` entries into the accumulator. -/
def mergeInto (acc : RawUsageRecord) (data : RawUsageRecord) : RawUsageRecord where
  totalCost := some (orZero acc.totalCost + orZero data.totalCost)
  totalInputTokens := some (orZero acc.totalInputTokens + orZero data.totalInputTokens)
  totalOutputTokens := some (orZero acc.totalOutputTokens + orZero data.totalOutputTokens)
  totalCacheCreationInputTokens :=
    some (orZero acc.totalCacheCreationInputTokens + orZero data.totalCacheCreationInputTokens)
  totalCacheReadInputTokens :=
    some (orZero acc.totalCacheReadInputTokens + orZero data.totalCacheReadInputTokens)
  byModel := some ((data.byModel.getD []).foldl
    (fun m e => bumpModel m e.1 e.2) (acc.byModel.getD []))
  byDay := some ((data.byDay.getD []).foldl
    (fun m e => bumpDay m e.1 e.2) (acc.byDay.getD []))

/-- `mergeUsageData(dataArray)` from `src/parser.js`: empty input yields
the all-zero record, a single-element input is returned as-is, otherwise
all records are folded into a fresh zero record. -/
def mergeUsageData (dataArray : List RawUsageRecord) : RawUsageRecord :=
  match dataArray with
  | [] => zeroRecord
  | [x] => x
  | x :: y :: rest => (x :: y :: rest).foldl mergeInto zeroRecord

/-- `filterByPeriod(data, period)` from `src/parser.js`, with the implicit
"now" passed as `todayIdx`. `'all'` returns the input itself; otherwise
`byDay` entries inside the range are copied verbatim and their costs
summed into the new `totalCost`, while the token totals and `byModel`
entries are rescaled by `filtered.totalCost / (data.totalCost || 1)`. -/
def filterByPeriod (data : RawUsageRecord) (period : String) (todayIdx : ℤ) :
    RawUsageRecord :=
  if period = "all" then data
  else
    let range := getPeriodRange period todayIdx
    let includedDays := (data.byDay.getD []).filter (fun e => isDateInRange e.1 range)
    let filteredCost := includedDays.foldl (fun acc e => acc + orZero e.2.cost) 0
    let totalOriginalCost := if orZero data.totalCost = 0 then 1 else orZero data.totalCost
    let filteredCostRatio := filteredCost / totalOriginalCost
    { totalCost := some filteredCost
      totalInputTokens :=
        some (jsRound (orZero data.totalInputTokens * filteredCostRatio) : ℚ)
      totalOutputTokens :=
        some (jsRound (orZero data.totalOutputTokens * filteredCostRatio) : ℚ)
      totalCacheCreationInputTokens :=
        some (jsRound (orZero data.totalCacheCreationInputTokens * filteredCostRatio) : ℚ)
      totalCacheReadInputTokens :=
        some (jsRound (orZero data.totalCacheReadInputTokens * filteredCostRatio) : ℚ)
      byModel := some ((data.byModel.getD []).map (fun e =>
        (e.1, (⟨some (orZero e.2.cost * filteredCostRatio),
               some (jsRound (orZero e.2.inputTokens * filteredCostRatio) : ℚ),
               some (jsRound (orZero e.2.outputTokens * filteredCostRatio) : ℚ)⟩ : ModelStat))))
      byDay := some includedDays }

/-- The nested `dailyAverage` object of a summary. -/
structure DailyAverage where
  tokens : ℚ
  cost : ℚ
  deriving DecidableEq, Repr

/-- Result of `calculateSummary` (`src/parser.js`). -/
structure Summary where
  totalTokens : ℚ
  totalInputTokens : ℚ
  totalOutputTokens : ℚ
  totalCacheCreation : ℚ
  totalCacheRead : ℚ
  totalCost : ℚ
  dailyAverage : DailyAverage
  periodDays : ℕ
  deriving DecidableEq, Repr

/-- `calculateSummary(data)` from `src/parser.js`: token totals read with
`|| 0`, `totalTokens` their sum, `periodDays = Object.keys(byDay).length || 1`,
average tokens rounded (`Math.round`), average cost left unrounded. -/
def calculateSummary (data : RawUsageRecord) : Summary :=
  let totalInputTokens := orZero data.totalInputTokens
  let totalOutputTokens := orZero data.totalOutputTokens
  let totalCacheCreation := orZero data.totalCacheCreationInputTokens
  let totalCacheRead := orZero data.totalCacheReadInputTokens
  let totalTokens := totalInputTokens + totalOutputTokens + totalCacheCreation + totalCacheRead
  let totalCost := orZero data.totalCost
  let days := (data.byDay.getD []).length
  let periodDays := if days = 0 then 1 else days
  { totalTokens := totalTokens
    totalInputTokens := totalInputTokens
    totalOutputTokens := totalOutputTokens
    totalCacheCreation := totalCacheCreation
    totalCacheRead := totalCacheRead
    totalCost := totalCost
    dailyAverage := ⟨(jsRound (totalTokens / periodDays) : ℚ), totalCost / periodDays⟩
    periodDays := periodDays }

/-- One element of the model breakdown produced by `getModelBreakdown`.
The source also carries `shortName`, a display-only string computed by
`shortenModelName(name)`; no derived quantity reads it, so it is omitted
from the embedding. -/
structure BreakdownEntry where
  name : String
  cost : ℚ
  inputTokens : ℚ
  outputTokens : ℚ
  percentage : ℚ
  deriving DecidableEq, Repr

/-- The `map` step of `getModelBreakdown`: one breakdown row from one
`byModel` entry, against the record's total cost `T`. -/
def breakdownRow (T : ℚ) (e : String × ModelStat) : BreakdownEntry :=
  { name := e.1
    cost := orZero e.2.cost
    inputTokens := orZero e.2.inputTokens
    outputTokens := orZero e.2.outputTokens
    percentage := calculatePercentage (orZero e.2.cost) T 0 }

/-- `getModelBreakdown(data)` from `src/parser.js`: map each `byModel`
entry to a breakdown row with `calculatePercentage(cost, totalCost, 0)`,
then stable-sort by cost descending (`sort((a, b) => b.cost - a.cost)`). -/
def getModelBreakdown (data : RawUsageRecord) : List BreakdownEntry :=
  let byModel := data.byModel.getD []
  let totalCost := orZero data.totalCost
  let models := byModel.map (breakdownRow totalCost)
  models.insertionSort (fun a b => b.cost ≤ a.cost)

/-- A JavaScript value, as far as `validateData` can observe it. -/
inductive JSVal where
  | vNull
  | vUndefined
  | vBool (b : Bool)
  | vNum (q : ℚ)
  | vStr (s : String)
  | vArr (elems : List JSVal)
  | vObj (fields : List (String × JSVal))

/-- JS `typeof` (note `typeof null === 'object'`). -/
def typeof : JSVal → String
  | .vNull => "object"
  | .vUndefined => "undefined"
  | .vBool _ => "boolean"
  | .vNum _ => "number"
  | .vStr _ => "string"
  | .vArr _ => "object"
  | .vObj _ => "object"

/-- JS truthiness of a value (`!x` is its negation). -/
def truthy : JSVal → Bool
  | .vNull => false
  | .vUndefined => false
  | .vBool b => b
  | .vNum q => decide (q ≠ 0)
  | .vStr s => decide (s ≠ "")
  | .vArr _ => true
  | .vObj _ => true

/-- `Array.isArray`. -/
def isArray : JSVal → Bool
  | .vArr _ => true
  | _ => false

/-- Property read `v.name`: `undefined` on a missing key or a non-object. -/
def getField (v : JSVal) (name : String) : JSVal :=
  match v with
  | .vObj fields => (((fields.find? (fun e => e.1 == name)).map (fun e => e.2)).getD .vUndefined)
  | _ => .vUndefined

/-- Result shape of `validateData`. -/
structure ValidationResult where
  isValid : Bool
  errors : List String
  deriving DecidableEq, Repr

/-- `validateData(data)` from `src/parser.js`: a falsy or non-`typeof`-object
input short-circuits with a single error; otherwise the ccusage shape
(array `daily` or truthy `totals`) or the internal shape is checked, each
failing field check appending its own message; `isValid` iff no errors. -/
def validateData (data : JSVal) : ValidationResult :=
  if ¬ truthy data = true ∨ typeof data ≠ "object" then
    ⟨false, ["Data must be an object"]⟩
  else
    let daily := getField data "daily"
    let totals := getField data "totals"
    let isCcusageFormat := isArray daily = true ∨ truthy totals = true
    let errors :=
      if isCcusageFormat then
        (if truthy daily = true ∧ ¬ isArray daily = true then ["daily must be an array"] else []) ++
        (if truthy totals = true ∧ typeof totals ≠ "object" then ["totals must be an object"] else [])
      else
        (if typeof (getField data "totalCost") ≠ "number" then ["totalCost must be a number"] else []) ++
        (if truthy (getField data "byModel") = true ∧ typeof (getField data "byModel") ≠ "object" then
          ["byModel must be an object"] else []) ++
        (if truthy (getField data "byDay") = true ∧ typeof (getField data "byDay") ≠ "object" then
          ["byDay must be an object"] else [])
    ⟨errors.isEmpty, errors⟩

/-! ### Observation helpers used by the theorem statements

Per-key sums over the `byModel` / `byDay` association lists: the total
contribution of a key across all its entries (a JS object has each key at
most once, but the sums are well-defined regardless). -/

/-- Sum of one field (read with `|| 0`) over the entries of an association
list carrying key `k`. -/
def sumAtKey {κ σ : Type} [BEq κ] (f : σ → Option ℚ) (l : List (κ × σ)) (k : κ) : ℚ :=
  ((l.filter (fun e => e.1 == k)).map (fun e => orZero (f e.2))).sum

/-- Sum of `cost || 0` over the `byModel` entries of `r` carrying key `k`. -/
def keyModelCost (r : RawUsageRecord) (k : String) : ℚ :=
  sumAtKey ModelStat.cost (r.byModel.getD []) k

/-- Sum of `inputTokens || 0` over the `byModel` entries of `r` carrying key `k`. -/
def keyModelInput (r : RawUsageRecord) (k : String) : ℚ :=
  sumAtKey ModelStat.inputTokens (r.byModel.getD []) k

/-- Sum of `outputTokens || 0` over the `byModel` entries of `r` carrying key `k`. -/
def keyModelOutput (r : RawUsageRecord) (k : String) : ℚ :=
  sumAtKey ModelStat.outputTokens (r.byModel.getD []) k

/-- Sum of `cost || 0` over the `byDay` entries of `r` carrying key `k`. -/
def keyDayCost (r : RawUsageRecord) (k : Int) : ℚ :=
  sumAtKey DayStat.cost (r.byDay.getD []) k

/-- Sum of `tokens || 0` over the `byDay` entries of `r` carrying key `k`. -/
def keyDayTokens (r : RawUsageRecord) (k : Int) : ℚ :=
  sumAtKey DayStat.tokens (r.byDay.getD []) k

/-! ### Basic lemmas -/

@[simp] lemma orZero_some (q : ℚ) : orZero (some q) = q := rfl

@[simp] lemma orZero_none : orZero none = 0 := rfl

/-- Compute `jsRound` from bracketing bounds on `q + 1/2`. -/
lemma jsRound_eq {q : ℚ} {n : ℤ} (h₁ : (n : ℚ) ≤ q + 1 / 2) (h₂ : q + 1 / 2 < n + 1) :
    jsRound q = n :=
  Int.floor_eq_iff.mpr ⟨h₁, h₂⟩

@[simp] lemma jsRound_zero : jsRound 0 = 0 :=
  jsRound_eq (by norm_num) (by norm_num)

lemma jsRound_nonneg {q : ℚ} (h : 0 ≤ q) : 0 ≤ jsRound q := by
  rw [jsRound]
  exact Int.le_floor.mpr (by norm_num; linarith)

lemma jsRound_le {q : ℚ} {n : ℤ} (h : q ≤ n) : jsRound q ≤ n := by
  rw [jsRound]
  exact Int.floor_le_iff.mpr (by linarith)

/-- `Math.round` lands within `1/2` of its argument. -/
lemma abs_jsRound_sub_le (q : ℚ) : |(jsRound q : ℚ) - q| ≤ 1 / 2 := by
  rw [jsRound, abs_le]
  constructor
  · have h := Int.sub_one_lt_floor (q + 1 / 2)
    linarith
  · have h := Int.floor_le (q + 1 / 2)
    linarith

/-- A left fold of `acc + f e` is the initial value plus the sum of the
images (the shape of the accumulation loops in the source). -/
lemma foldl_add_eq_sum {α : Type} (f : α → ℚ) (l : List α) (init : ℚ) :
    l.foldl (fun acc e => acc + f e) init = init + (l.map f).sum := by
  induction l generalizing init with
  | nil => simp
  | cons a rest ih => simp [ih, add_assoc]

/-- The in-range test against a day/week/month range is a day-level
comparison: UTC midnight of `d` is at least UTC midnight of `s` and at
most `23:59:59.999` of `t` exactly when `s ≤ d ≤ t`. -/
lemma isDateInRange_day_bounds (d s t : ℤ) (o : Option ℤ) :
    isDateInRange d ⟨some (s * msPerDay), t * msPerDay + 86399999, o⟩
      = decide (s ≤ d ∧ d ≤ t) := by
  simp only [isDateInRange]
  apply decide_eq_decide.mpr
  simp only [msPerDay]
  omega

/-! ### Per-key sums distribute over the merge loop -/

/-- Effect of one `bumpModel` step on a per-key sum, generically in the
selected field `f` (the two hypotheses are `rfl` for each actual field,
since `bumpModel` updates all fields in lockstep). -/
lemma sumAtKey_bumpModel (f : ModelStat → Option ℚ)
    (hnew : ∀ s : ModelStat,
      f ⟨some (orZero s.cost), some (orZero s.inputTokens), some (orZero s.outputTokens)⟩
        = some (orZero (f s)))
    (hcomb : ∀ t s : ModelStat,
      f ⟨some (orZero t.cost + orZero s.cost),
         some (orZero t.inputTokens + orZero s.inputTokens),
         some (orZero t.outputTokens + orZero s.outputTokens)⟩
        = some (orZero (f t) + orZero (f s)))
    (l : List (String × ModelStat)) (k' : String) (s : ModelStat) (k : String) :
    sumAtKey f (bumpModel l k' s) k
      = sumAtKey f l k + (if k' = k then orZero (f s) else 0) := by
  induction l with
  | nil =>
    by_cases h : k' = k <;> simp [bumpModel, sumAtKey, h, hnew]
  | cons e rest ih =>
    obtain ⟨k₀, t⟩ := e
    by_cases h₀ : k₀ = k'
    · subst h₀
      by_cases h : k₀ = k <;>
        simp [bumpModel, sumAtKey, h, hcomb, List.filter_cons] <;> ring
    · by_cases h : k₀ = k
      · subst h
        simp only [bumpModel, if_neg h₀, sumAtKey, List.filter_cons, beq_self_eq_true,
          if_pos trivial, List.map_cons, List.sum_cons] at ih ⊢
        simp only [ih]
        ring
      · simp only [bumpModel, if_neg h₀, sumAtKey, List.filter_cons] at ih ⊢
        simp [h, ih]

/-- Effect of the whole `byModel` merge loop on a per-key sum. -/
lemma sumAtKey_foldl_bumpModel (f : ModelStat → Option ℚ)
    (hnew : ∀ s : ModelStat,
      f ⟨some (orZero s.cost), some (orZero s.inputTokens), some (orZero s.outputTokens)⟩
        = some (orZero (f s)))
    (hcomb : ∀ t s : ModelStat,
      f ⟨some (orZero t.cost + orZero s.cost),
         some (orZero t.inputTokens + orZero s.inputTokens),
         some (orZero t.outputTokens + orZero s.outputTokens)⟩
        = some (orZero (f t) + orZero (f s)))
    (entries : List (String × ModelStat)) (init : List (String × ModelStat)) (k : String) :
    sumAtKey f (entries.foldl (fun m e => bumpModel m e.1 e.2) init) k
      = sumAtKey f init k + sumAtKey f entries k := by
  induction entries generalizing init with
  | nil => simp [sumAtKey]
  | cons e rest ih =>
    simp only [List.foldl_cons, ih, sumAtKey_bumpModel f hnew hcomb]
    by_cases h : e.1 = k <;> simp [sumAtKey, List.filter_cons, h] <;> ring

/-- Effect of one `bumpDay` step on a per-key sum, generically in the
selected field `g`. -/
lemma sumAtKey_bumpDay (g : DayStat → Option ℚ)
    (hnew : ∀ s : DayStat,
      g ⟨some (orZero s.cost), some (orZero s.tokens)⟩ = some (orZero (g s)))
    (hcomb : ∀ t s : DayStat,
      g ⟨some (orZero t.cost + orZero s.cost), some (orZero t.tokens + orZero s.tokens)⟩
        = some (orZero (g t) + orZero (g s)))
    (l : List (Int × DayStat)) (k' : Int) (s : DayStat) (k : Int) :
    sumAtKey g (bumpDay l k' s) k
      = sumAtKey g l k + (if k' = k then orZero (g s) else 0) := by
  induction l with
  | nil =>
    by_cases h : k' = k <;> simp [bumpDay, sumAtKey, h, hnew]
  | cons e rest ih =>
    obtain ⟨k₀, t⟩ := e
    by_cases h₀ : k₀ = k'
    · subst h₀
      by_cases h : k₀ = k <;>
        simp [bumpDay, sumAtKey, h, hcomb, List.filter_cons] <;> ring
    · by_cases h : k₀ = k
      · subst h
        simp only [bumpDay, if_neg h₀, sumAtKey, List.filter_cons, beq_self_eq_true,
          if_pos trivial, List.map_cons, List.sum_cons] at ih ⊢
        simp only [ih]
        ring
      · simp only [bumpDay, if_neg h₀, sumAtKey, List.filter_cons] at ih ⊢
        simp [h, ih]

/-- Effect of the whole `byDay` merge loop on a per-key sum. -/
lemma sumAtKey_foldl_bumpDay (g : DayStat → Option ℚ)
    (hnew : ∀ s : DayStat,
      g ⟨some (orZero s.cost), some (orZero s.tokens)⟩ = some (orZero (g s)))
    (hcomb : ∀ t s : DayStat,
      g ⟨some (orZero t.cost + orZero s.cost), some (orZero t.tokens + orZero s.tokens)⟩
        = some (orZero (g t) + orZero (g s)))
    (entries : List (Int × DayStat)) (init : List (Int × DayStat)) (k : Int) :
    sumAtKey g (entries.foldl (fun m e => bumpDay m e.1 e.2) init) k
      = sumAtKey g init k + sumAtKey g entries k := by
  induction entries generalizing init with
  | nil => simp [sumAtKey]
  | cons e rest ih =>
    simp only [List.foldl_cons, ih, sumAtKey_bumpDay g hnew hcomb]
    by_cases h : e.1 = k <;> simp [sumAtKey, List.filter_cons, h] <;> ring

lemma mergeUsageData_pair (x y : RawUsageRecord) :
    mergeUsageData [x, y] = mergeInto (mergeInto zeroRecord x) y := rfl

lemma mergeUsageData_triple (x y z : RawUsageRecord) :
    mergeUsageData [x, y, z] = mergeInto (mergeInto (mergeInto zeroRecord x) y) z := rfl

lemma keyModelCost_mergeInto (a b : RawUsageRecord) (k : String) :
    keyModelCost (mergeInto a b) k = keyModelCost a k + keyModelCost b k := by
  simp only [keyModelCost, mergeInto, Option.getD_some]
  exact sumAtKey_foldl_bumpModel _ (fun _ => rfl) (fun _ _ => rfl) _ _ _

lemma keyModelInput_mergeInto (a b : RawUsageRecord) (k : String) :
    keyModelInput (mergeInto a b) k = keyModelInput a k + keyModelInput b k := by
  simp only [keyModelInput, mergeInto, Option.getD_some]
  exact sumAtKey_foldl_bumpModel _ (fun _ => rfl) (fun _ _ => rfl) _ _ _

lemma keyModelOutput_mergeInto (a b : RawUsageRecord) (k : String) :
    keyModelOutput (mergeInto a b) k = keyModelOutput a k + keyModelOutput b k := by
  simp only [keyModelOutput, mergeInto, Option.getD_some]
  exact sumAtKey_foldl_bumpModel _ (fun _ => rfl) (fun _ _ => rfl) _ _ _

lemma keyDayCost_mergeInto (a b : RawUsageRecord) (k : Int) :
    keyDayCost (mergeInto a b) k = keyDayCost a k + keyDayCost b k := by
  simp only [keyDayCost, mergeInto, Option.getD_some]
  exact sumAtKey_foldl_bumpDay _ (fun _ => rfl) (fun _ _ => rfl) _ _ _

lemma keyDayTokens_mergeInto (a b : RawUsageRecord) (k : Int) :
    keyDayTokens (mergeInto a b) k = keyDayTokens a k + keyDayTokens b k := by
  simp only [keyDayTokens, mergeInto, Option.getD_some]
  exact sumAtKey_foldl_bumpDay _ (fun _ => rfl) (fun _ _ => rfl) _ _ _

@[simp] lemma keyModelCost_zeroRecord (k : String) : keyModelCost zeroRecord k = 0 := rfl

@[simp] lemma keyModelInput_zeroRecord (k : String) : keyModelInput zeroRecord k = 0 := rfl

@[simp] lemma keyModelOutput_zeroRecord (k : String) : keyModelOutput zeroRecord k = 0 := rfl

@[simp] lemma keyDayCost_zeroRecord (k : Int) : keyDayCost zeroRecord k = 0 := rfl

@[simp] lemma keyDayTokens_zeroRecord (k : Int) : keyDayTokens zeroRecord k = 0 := rfl

/-! ### Claims -/

/-- C3: `mergeUsageData` applied to a single-element sequence returns that
element itself unchanged, and applied to the empty sequence returns the
all-zero record (totalCost 0, all four token totals 0, empty `byModel`
and `byDay` mappings). -/
theorem mergeUsageData_identity (a : RawUsageRecord) :
    mergeUsageData [a] = a ∧
    mergeUsageData [] =
      { totalCost := some 0
        totalInputTokens := some 0
        totalOutputTokens := some 0
        totalCacheCreationInputTokens := some 0
        totalCacheReadInputTokens := some 0
        byModel := some []
        byDay := some [] } :=
  ⟨rfl, rfl⟩

/-- The `'all'` branch of `filterByPeriod` is the identity (shared helper). -/
lemma filterByPeriod_all_eq (data : RawUsageRecord) (today : ℤ) :
    filterByPeriod data "all" today = data := rfl

/-- C4: `filterByPeriod` with the period tag `'all'` returns the exact
input record — same five scalar totals, same `byModel` and `byDay`
mappings, nothing added, removed or rescaled. -/
theorem filterByPeriod_all_identity (data : RawUsageRecord) (today : ℤ) :
    filterByPeriod data "all" today = data := filterByPeriod_all_eq data today

/-- C5: merging the two-record result of `[A, B]` with `C` gives the same
merged record as merging `[A, B, C]`, and the same as merging `[C, B, A]`:
equality holds for each of the five scalar totals and, for every
`byModel` / `byDay` key, for the per-key sums (independent of input order
and grouping). -/
theorem mergeUsageData_assoc_comm (A B C : RawUsageRecord) :
    ((mergeUsageData [mergeUsageData [A, B], C]).totalCost
        = (mergeUsageData [A, B, C]).totalCost
      ∧ (mergeUsageData [A, B, C]).totalCost = (mergeUsageData [C, B, A]).totalCost) ∧
    ((mergeUsageData [mergeUsageData [A, B], C]).totalInputTokens
        = (mergeUsageData [A, B, C]).totalInputTokens
      ∧ (mergeUsageData [A, B, C]).totalInputTokens
        = (mergeUsageData [C, B, A]).totalInputTokens) ∧
    ((mergeUsageData [mergeUsageData [A, B], C]).totalOutputTokens
        = (mergeUsageData [A, B, C]).totalOutputTokens
      ∧ (mergeUsageData [A, B, C]).totalOutputTokens
        = (mergeUsageData [C, B, A]).totalOutputTokens) ∧
    ((mergeUsageData [mergeUsageData [A, B], C]).totalCacheCreationInputTokens
        = (mergeUsageData [A, B, C]).totalCacheCreationInputTokens
      ∧ (mergeUsageData [A, B, C]).totalCacheCreationInputTokens
        = (mergeUsageData [C, B, A]).totalCacheCreationInputTokens) ∧
    ((mergeUsageData [mergeUsageData [A, B], C]).totalCacheReadInputTokens
        = (mergeUsageData [A, B, C]).totalCacheReadInputTokens
      ∧ (mergeUsageData [A, B, C]).totalCacheReadInputTokens
        = (mergeUsageData [C, B, A]).totalCacheReadInputTokens) ∧
    (∀ k : String,
      (keyModelCost (mergeUsageData [mergeUsageData [A, B], C]) k
          = keyModelCost (mergeUsageData [A, B, C]) k
        ∧ keyModelCost (mergeUsageData [A, B, C]) k
          = keyModelCost (mergeUsageData [C, B, A]) k) ∧
      (keyModelInput (mergeUsageData [mergeUsageData [A, B], C]) k
          = keyModelInput (mergeUsageData [A, B, C]) k
        ∧ keyModelInput (mergeUsageData [A, B, C]) k
          = keyModelInput (mergeUsageData [C, B, A]) k) ∧
      (keyModelOutput (mergeUsageData [mergeUsageData [A, B], C]) k
          = keyModelOutput (mergeUsageData [A, B, C]) k
        ∧ keyModelOutput (mergeUsageData [A, B, C]) k
          = keyModelOutput (mergeUsageData [C, B, A]) k)) ∧
    (∀ k : Int,
      (keyDayCost (mergeUsageData [mergeUsageData [A, B], C]) k
          = keyDayCost (mergeUsageData [A, B, C]) k
        ∧ keyDayCost (mergeUsageData [A, B, C]) k
          = keyDayCost (mergeUsageData [C, B, A]) k) ∧
      (keyDayTokens (mergeUsageData [mergeUsageData [A, B], C]) k
          = keyDayTokens (mergeUsageData [A, B, C]) k
        ∧ keyDayTokens (mergeUsageData [A, B, C]) k
          = keyDayTokens (mergeUsageData [C, B, A]) k)) := by
  simp only [mergeUsageData_pair, mergeUsageData_triple]
  refine ⟨⟨?_, ?_⟩, ⟨?_, ?_⟩, ⟨?_, ?_⟩, ⟨?_, ?_⟩, ⟨?_, ?_⟩, fun k => ⟨⟨?_, ?_⟩, ⟨?_, ?_⟩, ⟨?_, ?_⟩⟩,
    fun k => ⟨⟨?_, ?_⟩, ⟨?_, ?_⟩⟩⟩ <;>
    first
      | (simp only [keyModelCost_mergeInto, keyModelInput_mergeInto, keyModelOutput_mergeInto,
          keyDayCost_mergeInto, keyDayTokens_mergeInto,
          keyModelCost_zeroRecord, keyModelInput_zeroRecord, keyModelOutput_zeroRecord,
          keyDayCost_zeroRecord, keyDayTokens_zeroRecord]
         ring)
      | (simp only [mergeInto, zeroRecord, orZero_some, orZero_none, Option.some.injEq]
         ring)

/-- For a period whose range has a start `s` (day/week/month), the filtered
`byDay` keeps exactly the entries with day index in `[s, today]`, verbatim,
and the filtered `totalCost` is the sum of their costs. -/
lemma filterByPeriod_byDay_totalCost (data : RawUsageRecord) (p : String) (today s : ℤ)
    (o : Option ℤ) (hp : ¬ p = "all")
    (hr : getPeriodRange p today = ⟨some (s * msPerDay), today * msPerDay + 86399999, o⟩) :
    (filterByPeriod data p today).byDay
      = some ((data.byDay.getD []).filter (fun e => decide (s ≤ e.1 ∧ e.1 ≤ today))) ∧
    (filterByPeriod data p today).totalCost
      = some ((((data.byDay.getD []).filter
          (fun e => decide (s ≤ e.1 ∧ e.1 ≤ today))).map (fun e => orZero e.2.cost)).sum) := by
  unfold filterByPeriod
  rw [if_neg hp, hr]
  constructor
  · simp [isDateInRange_day_bounds]
  · simp [isDateInRange_day_bounds, foldl_add_eq_sum]

/-- C1: for every record and each of the period tags `day`, `week`, `month`
(whose ranges reach back `k = 0 / 6 / 29` days), the filtered record keeps
exactly the `byDay` entries whose date lies in the period range — copied
with cost and tokens unchanged — and its `totalCost` is exactly the sum of
the `cost` fields of those entries. -/
theorem filterByPeriod_conservation (data : RawUsageRecord) (today : ℤ) (p : String) (k : ℤ)
    (hp : (p = "day" ∧ k = 0) ∨ (p = "week" ∧ k = 6) ∨ (p = "month" ∧ k = 29)) :
    (filterByPeriod data p today).byDay
      = some ((data.byDay.getD []).filter (fun e => decide (today - k ≤ e.1 ∧ e.1 ≤ today))) ∧
    (filterByPeriod data p today).totalCost
      = some ((((data.byDay.getD []).filter
          (fun e => decide (today - k ≤ e.1 ∧ e.1 ≤ today))).map (fun e => orZero e.2.cost)).sum) := by
  rcases hp with ⟨hp, hk⟩ | ⟨hp, hk⟩ | ⟨hp, hk⟩ <;> subst hp <;> subst hk
  · exact filterByPeriod_byDay_totalCost data "day" today (today - 0) (some 1) (by decide)
      (by norm_num [getPeriodRange])
  · exact filterByPeriod_byDay_totalCost data "week" today (today - 6) (some 7) (by decide)
      (by unfold getPeriodRange; rw [if_neg (by decide), if_pos rfl])
  · exact filterByPeriod_byDay_totalCost data "month" today (today - 29) (some 30) (by decide)
      (by unfold getPeriodRange; rw [if_neg (by decide), if_neg (by decide), if_pos rfl])

/-- Concrete record for the C1 witness: two days, one inside and one
outside a week range ending on day 10. -/
def c1WitnessData : RawUsageRecord :=
  ⟨some 7, none, none, none, none, none,
   some [(10, ⟨some 3, some 1⟩), (2, ⟨some 4, none⟩)]⟩

/-- Witness for C1: at the week filter on `c1WitnessData` with today = 10,
only day 10 is kept (verbatim) and the filtered `totalCost` is its cost. -/
theorem filterByPeriod_conservation_witness :
    (("week" = "day" ∧ (6 : ℤ) = 0) ∨ ("week" = "week" ∧ (6 : ℤ) = 6)
      ∨ ("week" = "month" ∧ (6 : ℤ) = 29)) ∧
    (filterByPeriod c1WitnessData "week" 10).byDay = some [(10, ⟨some 3, some 1⟩)] ∧
    (filterByPeriod c1WitnessData "week" 10).totalCost = some 3 := by
  refine ⟨Or.inr (Or.inl ⟨rfl, rfl⟩), ?_, ?_⟩
  · rw [(filterByPeriod_conservation c1WitnessData 10 "week" 6
      (Or.inr (Or.inl ⟨rfl, rfl⟩))).1]
    norm_num [c1WitnessData]
  · rw [(filterByPeriod_conservation c1WitnessData 10 "week" 6
      (Or.inr (Or.inl ⟨rfl, rfl⟩))).2]
    norm_num [c1WitnessData]

/-- C10: for a period tag that is none of `day`, `week`, `month`, `all`,
the computed range has no start limit, so every `byDay` entry is included
and the output `totalCost` is the sum of all `byDay` costs, while the four
token totals and every `byModel` entry are rescaled by the ratio of that
sum to the original `totalCost` (`|| 1` when it is 0); so the input is not
returned unchanged — whenever the stored `totalCost` differs from that
sum, the unrecognized tag produces a different `totalCost` than the tag
`'all'` does. -/
theorem filterByPeriod_unrecognized (data : RawUsageRecord) (p : String) (today : ℤ)
    (hp : p ≠ "day" ∧ p ≠ "week" ∧ p ≠ "month" ∧ p ≠ "all") :
    (filterByPeriod data p today).byDay = some (data.byDay.getD []) ∧
    (filterByPeriod data p today).totalCost
      = some (((data.byDay.getD []).map (fun e => orZero e.2.cost)).sum) ∧
    ((filterByPeriod data p today).totalInputTokens
        = some (jsRound (orZero data.totalInputTokens *
            (((data.byDay.getD []).map (fun e => orZero e.2.cost)).sum /
              (if orZero data.totalCost = 0 then 1 else orZero data.totalCost))) : ℚ) ∧
      (filterByPeriod data p today).totalOutputTokens
        = some (jsRound (orZero data.totalOutputTokens *
            (((data.byDay.getD []).map (fun e => orZero e.2.cost)).sum /
              (if orZero data.totalCost = 0 then 1 else orZero data.totalCost))) : ℚ) ∧
      (filterByPeriod data p today).totalCacheCreationInputTokens
        = some (jsRound (orZero data.totalCacheCreationInputTokens *
            (((data.byDay.getD []).map (fun e => orZero e.2.cost)).sum /
              (if orZero data.totalCost = 0 then 1 else orZero data.totalCost))) : ℚ) ∧
      (filterByPeriod data p today).totalCacheReadInputTokens
        = some (jsRound (orZero data.totalCacheReadInputTokens *
            (((data.byDay.getD []).map (fun e => orZero e.2.cost)).sum /
              (if orZero data.totalCost = 0 then 1 else orZero data.totalCost))) : ℚ)) ∧
    (filterByPeriod data p today).byModel
      = some ((data.byModel.getD []).map (fun e =>
          (e.1, (⟨some (orZero e.2.cost *
              (((data.byDay.getD []).map (fun e => orZero e.2.cost)).sum /
                (if orZero data.totalCost = 0 then 1 else orZero data.totalCost))),
            some (jsRound (orZero e.2.inputTokens *
              (((data.byDay.getD []).map (fun e => orZero e.2.cost)).sum /
                (if orZero data.totalCost = 0 then 1 else orZero data.totalCost))) : ℚ),
            some (jsRound (orZero e.2.outputTokens *
              (((data.byDay.getD []).map (fun e => orZero e.2.cost)).sum /
                (if orZero data.totalCost = 0 then 1 else orZero data.totalCost))) : ℚ)⟩
              : ModelStat)))) ∧
    (∀ c : ℚ, data.totalCost = some c →
      c ≠ ((data.byDay.getD []).map (fun e => orZero e.2.cost)).sum →
      (filterByPeriod data p today).totalCost ≠ (filterByPeriod data "all" today).totalCost) := by
  obtain ⟨h1, h2, h3, h4⟩ := hp
  have hr : getPeriodRange p today = ⟨none, today * msPerDay + 86399999, none⟩ := by
    unfold getPeriodRange
    rw [if_neg h1, if_neg h2, if_neg h3]
  refine ⟨?_, ?_, ⟨?_, ?_, ?_, ?_⟩, ?_, ?_⟩
  · unfold filterByPeriod
    rw [if_neg h4, hr]
    simp [isDateInRange]
  · unfold filterByPeriod
    rw [if_neg h4, hr]
    simp [isDateInRange, foldl_add_eq_sum]
  · unfold filterByPeriod
    rw [if_neg h4, hr]
    simp [isDateInRange, foldl_add_eq_sum]
  · unfold filterByPeriod
    rw [if_neg h4, hr]
    simp [isDateInRange, foldl_add_eq_sum]
  · unfold filterByPeriod
    rw [if_neg h4, hr]
    simp [isDateInRange, foldl_add_eq_sum]
  · unfold filterByPeriod
    rw [if_neg h4, hr]
    simp [isDateInRange, foldl_add_eq_sum]
  · unfold filterByPeriod
    rw [if_neg h4, hr]
    simp [isDateInRange, foldl_add_eq_sum]
  · intro c hc hne
    have htc : (filterByPeriod data p today).totalCost
        = some (((data.byDay.getD []).map (fun e => orZero e.2.cost)).sum) := by
      unfold filterByPeriod
      rw [if_neg h4, hr]
      simp [isDateInRange, foldl_add_eq_sum]
    rw [htc, filterByPeriod_all_eq, hc]
    intro h
    exact hne (Option.some.injEq _ _ ▸ h.symm)

/-- Concrete record for the C10 witness: stored `totalCost` 5 differs from
the `byDay` cost sum 3. -/
def c10WitnessData : RawUsageRecord :=
  ⟨some 5, none, none, none, none, none, some [(0, ⟨some 3, none⟩)]⟩

/-- Witness for C10: the unrecognized tag `"xyz"` keeps the whole `byDay`,
sums it into `totalCost`, and disagrees with the `'all'` filter. -/
theorem filterByPeriod_unrecognized_witness :
    (("xyz" : String) ≠ "day" ∧ ("xyz" : String) ≠ "week" ∧ ("xyz" : String) ≠ "month"
      ∧ ("xyz" : String) ≠ "all") ∧
    (filterByPeriod c10WitnessData "xyz" 0).byDay = some [(0, ⟨some 3, none⟩)] ∧
    (filterByPeriod c10WitnessData "xyz" 0).totalCost
      ≠ (filterByPeriod c10WitnessData "all" 0).totalCost := by
  have hp : ("xyz" : String) ≠ "day" ∧ ("xyz" : String) ≠ "week" ∧ ("xyz" : String) ≠ "month"
      ∧ ("xyz" : String) ≠ "all" := by
    refine ⟨?_, ?_, ?_, ?_⟩ <;> decide
  refine ⟨hp, ?_, ?_⟩
  · rw [(filterByPeriod_unrecognized c10WitnessData "xyz" 0 hp).1]
    rfl
  · exact (filterByPeriod_unrecognized c10WitnessData "xyz" 0 hp).2.2.2.2 5 rfl
      (by norm_num [c10WitnessData])

/-- The four filtered token totals all scale by
`filtered.totalCost / (data.totalCost || 1)` for any non-`'all'` period. -/
lemma filterByPeriod_tokens (data : RawUsageRecord) (p : String) (today : ℤ)
    (hp : ¬ p = "all") :
    (filterByPeriod data p today).totalInputTokens
      = some (jsRound (orZero data.totalInputTokens *
          (orZero (filterByPeriod data p today).totalCost /
            (if orZero data.totalCost = 0 then 1 else orZero data.totalCost))) : ℚ) ∧
    (filterByPeriod data p today).totalOutputTokens
      = some (jsRound (orZero data.totalOutputTokens *
          (orZero (filterByPeriod data p today).totalCost /
            (if orZero data.totalCost = 0 then 1 else orZero data.totalCost))) : ℚ) ∧
    (filterByPeriod data p today).totalCacheCreationInputTokens
      = some (jsRound (orZero data.totalCacheCreationInputTokens *
          (orZero (filterByPeriod data p today).totalCost /
            (if orZero data.totalCost = 0 then 1 else orZero data.totalCost))) : ℚ) ∧
    (filterByPeriod data p today).totalCacheReadInputTokens
      = some (jsRound (orZero data.totalCacheReadInputTokens *
          (orZero (filterByPeriod data p today).totalCost /
            (if orZero data.totalCost = 0 then 1 else orZero data.totalCost))) : ℚ) := by
  unfold filterByPeriod
  rw [if_neg hp]
  exact ⟨rfl, rfl, rfl, rfl⟩

/-- Record falsifying C2: original `totalCost` is 0, yet a `byDay` cost of 2
falls in range and the original input tokens are 10. -/
def c2CounterexampleData : RawUsageRecord :=
  ⟨some 0, some 10, some 0, some 0, some 0, some [], some [(5, ⟨some 2, some 0⟩)]⟩

/-- C2 counterexample: with original `totalCost = 0` the code divides by the
`|| 1` fallback, not by a ratio forced to 0 — the day filter turns the
original 10 input tokens into `round(10 · 2) = 20`, not 0 as the claim
requires. -/
theorem filterByPeriod_zero_cost_counterexample :
    c2CounterexampleData.totalCost = some 0 ∧
    (filterByPeriod c2CounterexampleData "day" 5).totalInputTokens = some 20 ∧
    (20 : ℚ) ≠ 0 := by
  refine ⟨rfl, ?_, by norm_num⟩
  unfold filterByPeriod
  rw [if_neg (by decide)]
  norm_num [c2CounterexampleData, getPeriodRange, isDateInRange, msPerDay]
  rw [show jsRound (20 : ℚ) = 20 from @jsRound_eq 20 20 (by norm_num) (by norm_num)]
  norm_num

/-- C2 (amended): for `day`/`week`/`month`, each of the four output token
totals is the original total scaled by
`filteredTotalCost / originalTotalCost` rounded to nearest, except that a
zero (or absent) original `totalCost` makes the denominator 1 rather than
the ratio 0 — so with original `totalCost = 0` the output token totals are
`round(original × filteredTotalCost)`, not necessarily 0. -/
theorem filterByPeriod_token_scaling (data : RawUsageRecord) (p : String) (today : ℤ)
    (hp : p = "day" ∨ p = "week" ∨ p = "month") :
    (filterByPeriod data p today).totalInputTokens
      = some (jsRound (orZero data.totalInputTokens *
          (orZero (filterByPeriod data p today).totalCost /
            (if orZero data.totalCost = 0 then 1 else orZero data.totalCost))) : ℚ) ∧
    (filterByPeriod data p today).totalOutputTokens
      = some (jsRound (orZero data.totalOutputTokens *
          (orZero (filterByPeriod data p today).totalCost /
            (if orZero data.totalCost = 0 then 1 else orZero data.totalCost))) : ℚ) ∧
    (filterByPeriod data p today).totalCacheCreationInputTokens
      = some (jsRound (orZero data.totalCacheCreationInputTokens *
          (orZero (filterByPeriod data p today).totalCost /
            (if orZero data.totalCost = 0 then 1 else orZero data.totalCost))) : ℚ) ∧
    (filterByPeriod data p today).totalCacheReadInputTokens
      = some (jsRound (orZero data.totalCacheReadInputTokens *
          (orZero (filterByPeriod data p today).totalCost /
            (if orZero data.totalCost = 0 then 1 else orZero data.totalCost))) : ℚ) := by
  rcases hp with h | h | h <;> subst h <;>
    exact filterByPeriod_tokens data _ today (by decide)

/-- Witness for C2 (amended): instantiated at the zero-cost record and the
day filter, where the scaled input-token total indeed comes out as 20. -/
theorem filterByPeriod_token_scaling_witness :
    (("day" : String) = "day" ∨ ("day" : String) = "week" ∨ ("day" : String) = "month") ∧
    (filterByPeriod c2CounterexampleData "day" 5).totalInputTokens
      = some (jsRound (orZero c2CounterexampleData.totalInputTokens *
          (orZero (filterByPeriod c2CounterexampleData "day" 5).totalCost /
            (if orZero c2CounterexampleData.totalCost = 0 then 1
             else orZero c2CounterexampleData.totalCost))) : ℚ) :=
  ⟨Or.inl rfl,
    (filterByPeriod_token_scaling c2CounterexampleData "day" 5 (Or.inl rfl)).1⟩

/-- Record for scenario C6: six days of cost 50 each (days 12, 13, 17–20),
one model of cost 300, stored `totalCost` 300. -/
def c6Data : RawUsageRecord :=
  ⟨some 300, some 0, some 0, some 0, some 0,
   some [("m", ⟨some 300, some 0, some 0⟩)],
   some [(20, ⟨some 50, some 0⟩), (19, ⟨some 50, some 0⟩), (18, ⟨some 50, some 0⟩),
         (17, ⟨some 50, some 0⟩), (13, ⟨some 50, some 0⟩), (12, ⟨some 50, some 0⟩)]⟩

/-- C6 counterexample: in the week scenario (4 of 6 days in range,
filtered total 200), the model's cost scales to `300 · (200/300) = 200`,
and `200 ≠ 200 · (200/300) ≈ 133.33`, the value the claim asserts. -/
lemma c6_range : getPeriodRange "week" 20 = ⟨some 1209600000, 1814399999, some 7⟩ := by
  unfold getPeriodRange
  rw [if_neg (by decide), if_pos rfl]
  norm_num [msPerDay]

theorem filterByPeriod_week_scenario_counterexample :
    (filterByPeriod c6Data "week" 20).totalCost = some 200 ∧
    (filterByPeriod c6Data "week" 20).byModel = some [("m", ⟨some 200, some 0, some 0⟩)] ∧
    (200 : ℚ) ≠ 200 * (200 / 300) := by
  refine ⟨?_, ?_, by norm_num⟩ <;>
    · unfold filterByPeriod
      rw [if_neg (by decide), c6_range]
      norm_num [c6Data, isDateInRange, msPerDay]

/-- C6 (amended): the week scenario yields `totalCost = 200`, and the model
with original cost 300 against original total 300 is scaled to
`300 · (200/300) = 200` (the ratio applies to the model's own cost). -/
theorem filterByPeriod_week_scenario :
    (filterByPeriod c6Data "week" 20).totalCost = some 200 ∧
    (filterByPeriod c6Data "week" 20).byModel = some [("m", ⟨some 200, some 0, some 0⟩)] ∧
    (200 : ℚ) = 300 * (200 / 300) := by
  refine ⟨?_, ?_, by norm_num⟩ <;>
    · unfold filterByPeriod
      rw [if_neg (by decide), c6_range]
      norm_num [c6Data, isDateInRange, msPerDay]

/-- C8: the summary's `totalTokens` is the sum of the four token totals
(absent fields count as 0), `periodDays` is the number of `byDay` keys or
1 when there are none, `dailyAverage.tokens` is
`round(totalTokens / periodDays)`, `dailyAverage.cost` is
`totalCost / periodDays` unrounded; the empty record summarizes to
`totalTokens = 0`, `totalCost = 0`, `periodDays = 1`. -/
theorem calculateSummary_spec (data : RawUsageRecord) :
    (calculateSummary data).totalTokens
      = orZero data.totalInputTokens + orZero data.totalOutputTokens
        + orZero data.totalCacheCreationInputTokens + orZero data.totalCacheReadInputTokens ∧
    (calculateSummary data).periodDays
      = (if (data.byDay.getD []).length = 0 then 1 else (data.byDay.getD []).length) ∧
    (calculateSummary data).dailyAverage.tokens
      = (jsRound ((calculateSummary data).totalTokens
          / ((calculateSummary data).periodDays : ℚ)) : ℚ) ∧
    (calculateSummary data).dailyAverage.cost
      = (calculateSummary data).totalCost / ((calculateSummary data).periodDays : ℚ) ∧
    calculateSummary ⟨none, none, none, none, none, none, none⟩
      = ⟨0, 0, 0, 0, 0, 0, ⟨0, 0⟩, 1⟩ := by
  refine ⟨rfl, rfl, rfl, rfl, ?_⟩
  simp [calculateSummary, orZero]

/-- C9: `validateData` rejects a falsy or non-object input with exactly one
error and no further field checks; on an object it accumulates one message
per failing field check without short-circuiting — an input violating both
the `totalCost` and `byModel` checks yields exactly those two error
entries — and `{totalCost: "x"}` is invalid with
`"totalCost must be a number"`. -/
theorem validateData_spec :
    (∀ v : JSVal, ¬ (truthy v = true ∧ typeof v = "object") →
      validateData v = ⟨false, ["Data must be an object"]⟩) ∧
    validateData (JSVal.vObj [("totalCost", JSVal.vStr "x"), ("byModel", JSVal.vNum 5)])
      = ⟨false, ["totalCost must be a number", "byModel must be an object"]⟩ ∧
    validateData (JSVal.vObj [("totalCost", JSVal.vStr "x")])
      = ⟨false, ["totalCost must be a number"]⟩ := by
  refine ⟨?_, ?_, ?_⟩
  · intro v h
    unfold validateData
    rw [if_pos (by tauto)]
  · simp [validateData, getField, truthy, typeof, isArray]
  · simp [validateData, getField, truthy, typeof, isArray]

/-- Witness for C9: `null` is falsy, so validation short-circuits with the
single error message. -/
theorem validateData_spec_witness :
    ¬ (truthy JSVal.vNull = true ∧ typeof JSVal.vNull = "object") ∧
    validateData JSVal.vNull = ⟨false, ["Data must be an object"]⟩ :=
  ⟨by simp [truthy], validateData_spec.1 JSVal.vNull (by simp [truthy])⟩

/-- Summing `f e / T * 100` over a list factors through the sum of `f`. -/
lemma sum_map_div_mul {α : Type} (l : List α) (f : α → ℚ) (T : ℚ) :
    (l.map (fun e => f e / T * 100)).sum = (l.map f).sum / T * 100 := by
  induction l with
  | nil => simp
  | cons a rest ih => simp [ih]; ring

/-- Rounding each list element moves the sum by at most half the length. -/
lemma abs_sum_jsRound_sub_le (qs : List ℚ) :
    |((qs.map (fun r => (jsRound r : ℚ))).sum - qs.sum)| ≤ (qs.length : ℚ) / 2 := by
  induction qs with
  | nil => simp
  | cons q rest ih =>
    simp only [List.map_cons, List.sum_cons, List.length_cons]
    have h1 := abs_jsRound_sub_le q
    have h2 : (jsRound q : ℚ) + (rest.map (fun r => (jsRound r : ℚ))).sum - (q + rest.sum)
        = ((jsRound q : ℚ) - q) + ((rest.map (fun r => (jsRound r : ℚ))).sum - rest.sum) := by
      ring
    rw [h2]
    refine ((abs_add _ _).trans (add_le_add h1 ih)).trans ?_
    push_cast
    linarith

/-- C7 (amended): each breakdown entry's percentage is
`round(cost / totalCost × 100)` with 0 whenever `totalCost` is 0; and
whenever the `byModel` costs are nonnegative and their sum reconciles with
a positive `totalCost`, every percentage lies between 0 and 100 and the
percentages sum to 100 up to ± the number of models. Without that
reconciliation hypothesis the bounds fail (see the counterexample). -/
theorem getModelBreakdown_percentage (data : RawUsageRecord) :
    (∀ e ∈ getModelBreakdown data,
      e.percentage = if orZero data.totalCost = 0 then 0
        else (jsRound (e.cost / orZero data.totalCost * 100) : ℚ)) ∧
    ((0 < orZero data.totalCost
        ∧ (∀ s ∈ data.byModel.getD [], 0 ≤ orZero s.2.cost)
        ∧ ((data.byModel.getD []).map (fun s => orZero s.2.cost)).sum
            = orZero data.totalCost) →
      (∀ e ∈ getModelBreakdown data, 0 ≤ e.percentage ∧ e.percentage ≤ 100) ∧
      |((getModelBreakdown data).map (fun e => e.percentage)).sum - 100|
        ≤ ((getModelBreakdown data).length : ℚ)) := by
  have hperm : List.Perm (getModelBreakdown data)
      ((data.byModel.getD []).map (breakdownRow (orZero data.totalCost))) :=
    List.perm_insertionSort _ _
  constructor
  · intro e he
    obtain ⟨src, hsrc, rfl⟩ := List.mem_map.mp (hperm.mem_iff.mp he)
    simp [breakdownRow, calculatePercentage]
  rintro ⟨hTpos, hpos, hsum⟩
  have hT0 : orZero data.totalCost ≠ 0 := ne_of_gt hTpos
  constructor
  · intro e he
    obtain ⟨src, hsrc, rfl⟩ := List.mem_map.mp (hperm.mem_iff.mp he)
    have hc0 : 0 ≤ orZero src.2.cost := hpos src hsrc
    have hcT : orZero src.2.cost ≤ orZero data.totalCost := by
      rw [← hsum]
      refine List.single_le_sum (fun x hx => ?_) _ (List.mem_map_of_mem _ hsrc)
      obtain ⟨s, hs, rfl⟩ := List.mem_map.mp hx
      exact hpos s hs
    simp only [breakdownRow, calculatePercentage, if_neg hT0, pow_zero, mul_one, div_one]
    constructor
    · have hq : 0 ≤ orZero src.2.cost / orZero data.totalCost * 100 :=
        mul_nonneg (div_nonneg hc0 hTpos.le) (by norm_num)
      exact_mod_cast jsRound_nonneg hq
    · have h1 : orZero src.2.cost / orZero data.totalCost ≤ 1 :=
        (div_le_one hTpos).mpr hcT
      have hq : orZero src.2.cost / orZero data.totalCost * 100 ≤ ((100 : ℤ) : ℚ) := by
        push_cast
        nlinarith
      exact_mod_cast jsRound_le hq
  · have hsum_eq : ((getModelBreakdown data).map (fun e => e.percentage)).sum
        = (((data.byModel.getD []).map (breakdownRow (orZero data.totalCost))).map
            (fun e => e.percentage)).sum :=
      (hperm.map _).sum_eq
    have hinner : (((data.byModel.getD []).map (breakdownRow (orZero data.totalCost))).map
          (fun e => e.percentage))
        = ((data.byModel.getD []).map
            (fun s => orZero s.2.cost / orZero data.totalCost * 100)).map
          (fun r => (jsRound r : ℚ)) := by
      simp [List.map_map, Function.comp_def, breakdownRow, calculatePercentage, hT0]
    have hqs_sum : ((data.byModel.getD []).map
        (fun s => orZero s.2.cost / orZero data.totalCost * 100)).sum = 100 := by
      rw [sum_map_div_mul, hsum, div_self hT0, one_mul]
    have hlen : ((getModelBreakdown data).length : ℚ)
        = (((data.byModel.getD []).map
            (fun s => orZero s.2.cost / orZero data.totalCost * 100)).length : ℚ) := by
      rw [hperm.length_eq, List.length_map, List.length_map]
    have hn : (0 : ℚ) ≤ (((data.byModel.getD []).map
        (fun s => orZero s.2.cost / orZero data.totalCost * 100)).length : ℚ) := by
      positivity
    have hb := abs_sum_jsRound_sub_le ((data.byModel.getD []).map
        (fun s => orZero s.2.cost / orZero data.totalCost * 100))
    rw [hqs_sum] at hb
    rw [hsum_eq, hinner, hlen]
    refine hb.trans ?_
    linarith

/-- Record falsifying C7's bounds: the model cost 200 does not reconcile
with the stored `totalCost` 100. -/
def c7CounterexampleData : RawUsageRecord :=
  ⟨some 100, none, none, none, none, some [("m", ⟨some 200, none, none⟩)], some []⟩

/-- C7 counterexample: the single entry gets percentage
`round(200/100 × 100) = 200`, which exceeds 100, and the percentage sum
200 misses 100 ± 1 (one model). -/
theorem getModelBreakdown_percentage_counterexample :
    getModelBreakdown c7CounterexampleData = [⟨"m", 200, 0, 0, 200⟩] ∧
    ¬ ((200 : ℚ) ≤ 100) ∧
    ¬ (|(200 : ℚ) - 100| ≤ 1) := by
  refine ⟨?_, by norm_num, ?_⟩
  · simp [getModelBreakdown, c7CounterexampleData, List.insertionSort, List.orderedInsert,
      breakdownRow, calculatePercentage, orZero]
    rw [show jsRound (200 : ℚ) = 200 from @jsRound_eq 200 200 (by norm_num) (by norm_num)]
    norm_num
  · rw [show (200 : ℚ) - 100 = 100 by norm_num,
      abs_of_nonneg (by norm_num : (0 : ℚ) ≤ 100)]
    norm_num

/-- Record for the C7 witness: two models, costs 60 and 40, reconciling
with `totalCost` 100. -/
def c7WitnessData : RawUsageRecord :=
  ⟨some 100, none, none, none, none,
   some [("a", ⟨some 60, none, none⟩), ("b", ⟨some 40, none, none⟩)], none⟩

/-- Witness for C7 (amended): the reconciliation hypotheses hold for the
60/40 record, hence all percentages are within [0, 100] and their sum is
within 100 ± 2. -/
theorem getModelBreakdown_percentage_witness :
    (0 < orZero c7WitnessData.totalCost
      ∧ (∀ s ∈ c7WitnessData.byModel.getD [], 0 ≤ orZero s.2.cost)
      ∧ ((c7WitnessData.byModel.getD []).map (fun s => orZero s.2.cost)).sum
          = orZero c7WitnessData.totalCost) ∧
    ((∀ e ∈ getModelBreakdown c7WitnessData, 0 ≤ e.percentage ∧ e.percentage ≤ 100) ∧
      |((getModelBreakdown c7WitnessData).map (fun e => e.percentage)).sum - 100|
        ≤ ((getModelBreakdown c7WitnessData).length : ℚ)) := by
  have hh : 0 < orZero c7WitnessData.totalCost
      ∧ (∀ s ∈ c7WitnessData.byModel.getD [], 0 ≤ orZero s.2.cost)
      ∧ ((c7WitnessData.byModel.getD []).map (fun s => orZero s.2.cost)).sum
          = orZero c7WitnessData.totalCost := by
    refine ⟨by norm_num [c7WitnessData, orZero], ?_, by norm_num [c7WitnessData, orZero]⟩
    intro s hs
    simp only [c7WitnessData, Option.getD_some, List.mem_cons, List.mem_singleton] at hs
    rcases hs with rfl | hs
    · norm_num [orZero]
    · rcases hs with rfl | hs
      · norm_num [orZero]
      · simp at hs
  exact ⟨hh, (getModelBreakdown_percentage c7WitnessData).2 hh⟩

end VibeDashboard
